import Mathlib

/-!
Verification of the district-resolution and key-normalization core of the
repapp backend (files `backend/loader.py` and `backend/app.py`).

The Python code is shallowly embedded: each Python function that the claims
touch is translated into an executable Lean definition of the same name
(leading underscores dropped where Python uses them).  Python `str` values
are Lean `String`s; cells that may be missing or NaN are `Option String`
(`none` models Python `None` / pandas NaN); Python dicts are association
lists scanned from the left, which is faithful for the lookup-only use the
code makes of them; Python sets are lists considered up to membership
(every theorem below about a set-valued result only uses membership).
-/

/-! ## Python string primitives (ASCII, as used by the data in this app) -/

/-- Whitespace characters recognized by Python `str.strip` / `\s` (ASCII). -/
def isWsChar (c : Char) : Bool :=
  c = ' ' || c = '\t' || c = '\n' || c = '\r' || c = '\x0b' || c = '\x0c'

/-- ASCII uppercase of one character (Python `str.upper` on the app's data). -/
def upperChar (c : Char) : Char :=
  if 'a' ≤ c && c ≤ 'z' then Char.ofNat (c.toNat - 32) else c

/-- ASCII lowercase of one character (Python `str.lower`). -/
def lowerChar (c : Char) : Char :=
  if 'A' ≤ c && c ≤ 'Z' then Char.ofNat (c.toNat + 32) else c

/-- Python `s.upper()`. -/
def pyUpper (s : String) : String := ⟨s.data.map upperChar⟩

/-- Python `s.lower()`. -/
def pyLower (s : String) : String := ⟨s.data.map lowerChar⟩

/-- Strip leading and trailing whitespace from a character list. -/
def pyStripData (l : List Char) : List Char :=
  ((l.dropWhile isWsChar).reverse.dropWhile isWsChar).reverse

/-- Python `s.strip()`. -/
def pyStrip (s : String) : String := ⟨pyStripData s.data⟩

/-- One pass of `re.sub(r"\s+", " ", s)`: collapse each whitespace run to one space. -/
def compactWsAux : List Char → Bool → List Char
  | [], _ => []
  | c :: rest, prevWs =>
    if isWsChar c then
      if prevWs then compactWsAux rest true else ' ' :: compactWsAux rest true
    else c :: compactWsAux rest false

/-- Python `re.sub(r"\s+", " ", s)`. -/
def compactWsStr (s : String) : String := ⟨compactWsAux s.data false⟩

/-- Python `re.sub(r"\s+", "", s)`: remove all whitespace. -/
def stripWsStr (s : String) : String := ⟨s.data.filter (fun c => !isWsChar c)⟩

/-- Python `re.sub(r"[\s-]+", "", s)`: remove all whitespace and hyphens. -/
def stripSepStr (s : String) : String :=
  ⟨s.data.filter (fun c => !(isWsChar c || c = '-'))⟩

/-- Python `s.replace(a, b)` for one-character patterns. -/
def replaceChar (s : String) (a b : Char) : String :=
  ⟨s.data.map (fun c => if c = a then b else c)⟩

/-- Python `a in s` for a one-character `a`. -/
def containsChar (s : String) (a : Char) : Bool := s.data.contains a

/-- Python `s.replace(" ", "")`: remove literal spaces (only U+0020). -/
def removeSpaces (s : String) : String := ⟨s.data.filter (fun c => c ≠ ' ')⟩

/-- Python `s.startswith(p)`. -/
def strStartsWith (s p : String) : Bool :=
  decide (s.data.take p.data.length = p.data)

/-- Numeric value of a decimal digit string (Python `int(s)` on digits). -/
def natOfDigits (l : List Char) : Nat :=
  l.foldl (fun n c => n * 10 + (c.toNat - 48)) 0

/-- Python `s.isdigit()` on a character list (ASCII digits). -/
def isDigitList (l : List Char) : Bool := !l.isEmpty && l.all Char.isDigit

/-- Decimal rendering of a `Nat`, fuel-based so it evaluates in the kernel. -/
def natDigitsAux : Nat → Nat → List Char → List Char
  | 0, _, acc => acc
  | fuel + 1, n, acc =>
    let d := Char.ofNat (48 + n % 10)
    if n < 10 then d :: acc else natDigitsAux fuel (n / 10) (d :: acc)

/-- Python `str(n)` / `f"{n}"` for a nonnegative integer. -/
def natToStr (n : Nat) : String := ⟨natDigitsAux (n + 1) n []⟩

/-! ## First-occurrence de-duplication

Python reaches this semantics twice: `dict.fromkeys(...)` in
`district_key_variants` (loader.py line 22) and the `seen`/`ordered` loop at
app.py lines 336-339.  Both keep the first occurrence of each element, in
order; `dedupFO` is the common embedding, written exactly as the loop. -/

def dedupFOAux (seen ordered : List String) : List String → List String
  | [] => ordered
  | r :: rest =>
    if r ∈ seen then dedupFOAux seen ordered rest
    else dedupFOAux (seen ++ [r]) (ordered ++ [r]) rest

/-- First-occurrence de-duplication (the `seen`/`ordered` loop of app.py). -/
def dedupFO (l : List String) : List String := dedupFOAux [] [] l

/-! ## loader.py: key variants and cell normalization -/

/-- loader.py `district_key_variants`: tolerant keys for indexing by district
string.  `none` models calling it with Python `None`; the Python guard
`if not d` returns `[]` for both `None` and `""`. -/
def district_key_variants (d : Option String) : List String :=
  match d with
  | none => []
  | some d =>
    if d = "" then []
    else
      let s := pyStrip d
      dedupFO [s, pyUpper s, compactWsStr s, stripWsStr (pyUpper s)]

/-- loader.py `_norm`: `None`/NaN (modeled as `none`) or literal `"nan"` in any
case becomes `""`; anything else is trimmed. -/
def normCell (x : Option String) : String :=
  match x with
  | none => ""
  | some x =>
    let s := pyStrip x
    if pyLower s = "nan" then "" else s

def YES_TOKENS : List String :=
  ["Y", "YES", "YEA", "AYE", "PRO", "FOR", "APPROVE", "APPROVED"]

def NO_TOKENS : List String :=
  ["N", "NO", "NAY", "AGAINST", "ANTI", "REJECT", "REJECTED"]

def NOVOTE_TOKENS : List String :=
  ["NV", "N/V", "ABSTAIN", "ABSTENTION", "ABSENT", "EXCUSED", "PRESENT", "—",
   "", "NA", "N/A", "DID NOT VOTE", "DIDN'T VOTE"]

/-- loader.py `_cell_to_yn`: classify a raw roll-call cell as Y / N / NV.
`none` models a missing or NaN cell. -/
def cell_to_yn (cell : Option String) : String :=
  match cell with
  | none => "NV"
  | some cell =>
    let U := pyUpper (pyStrip cell)
    if strStartsWith U "PRO-" || strStartsWith U "PRO " then "Y"
    else if strStartsWith U "ANTI-" || strStartsWith U "AGAINST" then "N"
    else if U ∈ NOVOTE_TOKENS then "NV"
    else if U ∈ YES_TOKENS then "Y"
    else if U ∈ NO_TOKENS then "N"
    else "NV"

/-- One entry of the per-representative `votes` dict (loader.py lines 128-132). -/
structure VoteEntry where
  stance : String
  raw : String
  vote : String
deriving DecidableEq, Repr

/-- loader.py lines 119-132: derive one vote entry from the issue's
`support_when` polarity and the raw cell. -/
def voteEntry (supportWhen : String) (rawCell : Option String) : VoteEntry :=
  let yn := cell_to_yn rawCell
  let stance :=
    if yn = "NV" then "no_vote"
    else if (decide (yn = "Y") = decide (supportWhen = "Y")) then "support"
    else "oppose"
  ⟨stance, if yn = "NV" then "" else normCell rawCell, yn⟩

/-! ## app.py: county tables and label converters -/

def COUNTY_ABBR_2 : List (String × String) :=
  [("BE", "Belknap"), ("CA", "Carroll"), ("CH", "Cheshire"), ("CO", "Coos"),
   ("GR", "Grafton"), ("HI", "Hillsborough"), ("ME", "Merrimack"),
   ("RO", "Rockingham"), ("ST", "Strafford"), ("SU", "Sullivan")]

def COUNTY_2_TO_3 : List (String × String) :=
  [("BE", "BEL"), ("CA", "CAR"), ("CH", "CHE"), ("CO", "COO"),
   ("GR", "GRA"), ("HI", "HIL"), ("ME", "MER"),
   ("RO", "ROC"), ("ST", "STR"), ("SU", "SUL")]

/-- Python `dict.get(k)` on a string-keyed dict modeled as an assoc list. -/
def alGet (m : List (String × String)) (k : String) : Option String :=
  (m.find? (fun e => e.1 = k)).map Prod.snd

/-- Python `dict.get(k, d)`. -/
def alGetD (m : List (String × String)) (k d : String) : String :=
  (alGet m k).getD d

/-- app.py line 39: `{v: COUNTY_2_TO_3[k2] for k2, v in COUNTY_ABBR_2.items()}`. -/
def COUNTY_NAME_TO_3 : List (String × String) :=
  COUNTY_ABBR_2.map (fun e => (e.2, alGetD COUNTY_2_TO_3 e.1 ""))

def isUpperAZ (c : Char) : Bool := 'A' ≤ c && c ≤ 'Z'

def isAlphaAZ (c : Char) : Bool := isUpperAZ c || ('a' ≤ c && c ≤ 'z')

/-- `re.fullmatch(r"([A-Z]{2})\s*-?\s*(\d+)", s)`: two uppercase letters,
optional whitespace, optional hyphen, optional whitespace, then digits to the
end.  The character classes are disjoint so the greedy match is this scan. -/
def parse2Letter (l : List Char) : Option (String × Nat) :=
  match l with
  | c1 :: c2 :: rest =>
    if isUpperAZ c1 && isUpperAZ c2 then
      let r1 := rest.dropWhile isWsChar
      let r2 := match r1 with
        | '-' :: r => r
        | _ => r1
      let r3 := r2.dropWhile isWsChar
      if isDigitList r3 then some (⟨[c1, c2]⟩, natOfDigits r3) else none
    else none
  | _ => none

/-- `re.fullmatch(r"([A-Za-z]+)\s+(\d+)", s)`: letters, at least one
whitespace character, then digits to the end. -/
def parseNameNum (l : List Char) : Option (String × Nat) :=
  let letters := l.takeWhile isAlphaAZ
  let rest := l.drop letters.length
  let ws := rest.takeWhile isWsChar
  let digits := rest.drop ws.length
  if !letters.isEmpty && !ws.isEmpty && isDigitList digits then
    some (⟨letters⟩, natOfDigits digits)
  else none

/-- app.py `code_to_district_name`: `GR15 -> Grafton 15`, also
`Grafton-15 -> Grafton 15`.  Python returns the falsy input itself
(`None` or `""`) unchanged. -/
def code_to_district_name (v : Option String) : Option String :=
  match v with
  | none => none
  | some s0 =>
    if s0 = "" then some s0
    else
      let s := pyStrip s0
      match parse2Letter s.data with
      | some (ab, n) => some (alGetD COUNTY_ABBR_2 ab ab ++ " " ++ natToStr n)
      | none =>
        if containsChar s '-' then
          let left := ⟨s.data.takeWhile (fun c => c ≠ '-')⟩
          let right : String := ⟨(s.data.dropWhile (fun c => c ≠ '-')).drop 1⟩
          if isDigitList (pyStrip right).data then
            some (pyStrip left ++ " " ++ natToStr (natOfDigits (pyStrip right).data))
          else some s
        else some s

/-- app.py `three_letter_from_name_or_code`: CSV-style 3-letter code
`GRA 15` from `Grafton 15` or `GR15`, else `none`. -/
def three_letter_from_name_or_code (base_name base_code : Option String) : Option String :=
  let bc := pyStrip (base_code.getD "")
  let tryName : Option String :=
    match parseNameNum (pyStrip (base_name.getD "")).data with
    | some (nm, n) =>
      match alGet COUNTY_NAME_TO_3 nm with
      | some k3 => some (k3 ++ " " ++ natToStr n)
      | none => none
    | none => none
  match parse2Letter bc.data with
  | some (ab, n) =>
    match alGet COUNTY_2_TO_3 ab with
    | some c3 => some (c3 ++ " " ++ natToStr n)
    | none => tryName
  | none => tryName

/-! ## app.py: `variant_keys` -/

/-- app.py line 89: the separator-stripped uppercase form added for every key
(`re.sub(r"[\s-]+", "", k.upper())`). -/
def canonKey (s : String) : String := stripSepStr (pyUpper s)

/-- app.py `variant_keys(*vals)`: aggressive lookup variants for district
strings.  The Python function returns a `set`; this embedding returns its
members as a list in first-insertion order, and every theorem about it uses
only membership. -/
def variant_keys (vals : List (Option String)) : List String :=
  let keys := vals.flatMap (fun v =>
    match v with
    | none => []
    | some s0 =>
      if s0 = "" then []
      else
        let s := pyStrip s0
        district_key_variants (some s)
        ++ (if containsChar s ' ' then district_key_variants (some (replaceChar s ' ' '-')) else [])
        ++ (if containsChar s '-' then district_key_variants (some (replaceChar s '-' ' ')) else []))
  let keys := dedupFO keys
  dedupFO (keys ++ keys.map canonKey)

/-! ## app.py: polygon index (`_base_from_point`)

Shapely geometry is abstracted to its two tests the code calls: `contains`
(interior containment) and `intersects` (which for a point is closed,
boundary-inclusive containment).  Points are pairs of rationals. -/

structure Geom where
  interiorContains : ℚ × ℚ → Bool
  closedContains : ℚ × ℚ → Bool

/-- app.py `_base_from_point` (lines 241-252): scan `DIST_SHAPES` in load
order and return the name of the first polygon for which
`geom.contains(p) or geom.intersects(p)` holds, else `None`. -/
def base_from_point : List (Geom × String) → ℚ × ℚ → Option String
  | [], _ => none
  | (g, dname) :: rest, p =>
    if g.interiorContains p || g.closedContains p then some dname
    else base_from_point rest p

/-- Axis-aligned rectangle, interior containment (shapely `contains` for a
point strictly inside). -/
def rectInterior (x1 y1 x2 y2 : ℚ) (p : ℚ × ℚ) : Bool :=
  decide (x1 < p.1) && decide (p.1 < x2) && decide (y1 < p.2) && decide (p.2 < y2)

/-- Axis-aligned rectangle, closed containment (shapely `intersects` for a
point: inside or on the boundary). -/
def rectClosed (x1 y1 x2 y2 : ℚ) (p : ℚ × ℚ) : Bool :=
  decide (x1 ≤ p.1) && decide (p.1 ≤ x2) && decide (y1 ≤ p.2) && decide (p.2 ≤ y2)

/-- A rectangle as a `Geom`. -/
def rectGeom (x1 y1 x2 y2 : ℚ) : Geom :=
  ⟨rectInterior x1 y1 x2 y2, rectClosed x1 y1 x2 y2⟩

/-! ## app.py: `/lookup` orchestration (lines 299-362)

Only the district-resolution core is embedded: geocoding and the HTTP layer
stay outside, as the spec directs.  `LookupTables` is the immutable loaded
state (`BASE_TO_FLOTS`, `TOWN_TO_FLOTS`, `REPS_BY_DIST`). -/

/-- Python `dict.get(k, [])` on a dict of lists. -/
def getDL (m : List (String × List String)) (k : String) : List String :=
  ((m.find? (fun e => e.1 = k)).map Prod.snd).getD []

structure LookupTables where
  baseToFlots : List (String × List String)
  townToFlots : List (String × List String)
  repsByDist : List (String × List String)

/-- Insertion of one string into an ascending list (`sortStrings` helper). -/
def insSorted (a : String) : List String → List String
  | [] => [a]
  | b :: l => if a ≤ b then a :: b :: l else b :: insSorted a l

/-- Python `sorted` on strings (ascending lexicographic; the inputs it is
applied to below are duplicate-free, so the order is uniquely determined). -/
def sortStrings (l : List String) : List String := l.foldr insSorted []

/-- app.py lines 304-307: candidate roster keys for the base district. -/
def candidateKeys (base_name base_code csv3 : Option String) : List String :=
  variant_keys [base_name, base_code, csv3]
  ++ (match csv3 with
      | some c => if c = "" then [] else [removeSpaces c]
      | none => [])

/-- app.py lines 314-322: collect floterial labels from the base-side probes
(`s`, then every `variant_keys(s)`, for each truthy `s` among base name, base
code and 3-letter code) and from the town table.  Returns the union as a list
of occurrences; the Python `set` it fills is used only via `sorted(list(...))`
and membership. -/
def collectFlots (T : LookupTables) (vals : List (Option String)) (townUpper : String) : List String :=
  (vals.flatMap (fun v =>
    match v with
    | none => []
    | some s =>
      if s = "" then []
      else getDL T.baseToFlots s ++ (variant_keys [some s]).flatMap (getDL T.baseToFlots)))
  ++ (if townUpper = "" then [] else getDL T.townToFlots townUpper)

/-- app.py lines 326-331: the roster keys probed for one floterial label:
its `variant_keys`, plus, when `three_letter_from_name_or_code(f, "")`
yields a 3-letter form, that form's `variant_keys` and its space-free
rendering.  A Python `set`; membership is what is used. -/
def flotProbeKeys (f : String) : List String :=
  let keys := variant_keys [some f]
  match three_letter_from_name_or_code (some f) (some "") with
  | some f3 => dedupFO (keys ++ variant_keys [some f3] ++ [removeSpaces f3])
  | none => dedupFO keys

/-- The fields of the `/lookup` response the claims are about. -/
structure LookupResult where
  base_code : Option String
  base_district : Option String
  floterials : List String
  repIds : List String
deriving DecidableEq, Repr

/-- app.py line 356: drop empty and NaN-like floterial strings. -/
def flotClean (f : String) : Bool :=
  !(f = "") && !(pyStrip f = "") && !(pyLower (pyStrip f) ∈ ["nan", "<nan>"])

/-- app.py lines 299-362 from the resolved base code onward: build candidate
keys, collect representative ids from the base keys, expand floterials,
collect representative ids from each floterial's probe keys, then
de-duplicate by first occurrence. -/
def lookupCore (T : LookupTables) (base_code : Option String) (townUpper : String) : LookupResult :=
  let base_name := code_to_district_name base_code
  let csv3 := three_letter_from_name_or_code base_name base_code
  let ckeys := candidateKeys base_name base_code csv3
  let repIdsBase := ckeys.flatMap (getDL T.repsByDist)
  let flotsRaw := collectFlots T [base_name, base_code, csv3] townUpper
  let flots := sortStrings (dedupFO flotsRaw)
  let repIds := repIdsBase ++ flots.flatMap (fun f => (flotProbeKeys f).flatMap (getDL T.repsByDist))
  let ordered := dedupFO repIds
  let flotsOut := sortStrings ((dedupFO flotsRaw).filter flotClean)
  ⟨base_code, base_name, flotsOut, ordered⟩

/-- The `/lookup` pipeline from a point: polygon index, then `lookupCore`. -/
def lookupFromPoint (shapes : List (Geom × String)) (T : LookupTables)
    (p : ℚ × ℚ) (townUpper : String) : LookupResult :=
  lookupCore T (base_from_point shapes p) townUpper

/-- Outcome of the `/lookup` route: geocoding failure is reported with an
HTTP 422 before the district stage runs (app.py lines 296-297); otherwise the
district-resolution result is returned. -/
inductive RouteResult where
  | geocodeFailed : RouteResult
  | ok : LookupResult → RouteResult
deriving DecidableEq, Repr

/-- app.py `/lookup` route: `none` models "geocoding produced no
coordinates"; `some (p, town)` models resolved coordinates plus the
upper-cased town hint (empty when lat/lon were passed directly). -/
def lookupRoute (shapes : List (Geom × String)) (T : LookupTables)
    (geo : Option ((ℚ × ℚ) × String)) : RouteResult :=
  match geo with
  | none => .geocodeFailed
  | some (p, town) => .ok (lookupFromPoint shapes T p town)

/-! ## loader.py: `load_votes` (lines 92-143)

A roster row is modeled with the cells the loop reads.  `none` models a
missing or NaN cell (the `openstates_person_id` NaN-float truthiness quirk
of pandas is not modeled; no claim depends on it). -/

structure IssueDefL where
  slug : String
  csv_header : String
  label : String
  bill : String
  bill_url : String
  support_when : String
deriving DecidableEq, Repr

structure RowL where
  osId : Option String
  nameCell : Option String
  distCell : Option String
  partyCell : Option String
  cells : List (String × Option String)
deriving DecidableEq, Repr

/-- Python `f"{cell}"` on a cell: NaN prints as `"nan"`. -/
def cellStr (c : Option String) : String :=
  match c with
  | none => "nan"
  | some s => s

/-- Python `row.get(header)`: `none` when the column is absent. -/
def rowGet (cells : List (String × Option String)) (header : String) : Option String :=
  ((cells.find? (fun e => e.1 = header)).map Prod.snd).getD none

/-- loader.py line 114: `str(row.get("openstates_person_id") or f"{name}|{district}")`. -/
def repRowId (row : RowL) : String :=
  let fallback := cellStr row.nameCell ++ "|" ++ cellStr row.distCell
  match row.osId with
  | some s => if s = "" then fallback else s
  | none => fallback

/-- Python dict assignment `d[k] = v`, modeled for lookups: `find?` scans
from the left, so a prepended binding shadows any older one. -/
def alSet {β : Type} (m : List (String × β)) (k : String) (v : β) : List (String × β) :=
  (k, v) :: m

/-- Python `d.setdefault(k, []).append(rid)` on a dict of lists. -/
def alAppend (m : List (String × List String)) (k rid : String) : List (String × List String) :=
  match m with
  | [] => [(k, [rid])]
  | e :: rest => if e.1 = k then (e.1, e.2 ++ [rid]) :: rest else e :: alAppend rest k rid

/-- The per-representative record built at loader.py line 134. -/
structure RepInfo where
  id : String
  name : String
  party : String
  district : String
  votes : List (String × VoteEntry)
deriving DecidableEq, Repr

/-- loader.py lines 119-132: the `votes` dict of one row. -/
def rowVotes (issues : List IssueDefL) (row : RowL) : List (String × VoteEntry) :=
  issues.foldl (fun m it => alSet m it.slug (voteEntry it.support_when (rowGet row.cells it.csv_header))) []

/-- One iteration of the row loop of loader.py lines 113-136, acting on the
accumulated `(reps_by_district, rep_info)` pair. -/
def loadVotesStep (issues : List IssueDefL)
    (acc : List (String × List String) × List (String × RepInfo)) (row : RowL) :
    List (String × List String) × List (String × RepInfo) :=
  let rid := repRowId row
  let dist := normCell row.distCell
  let info : RepInfo :=
    ⟨rid, normCell row.nameCell, normCell row.partyCell, dist, rowVotes issues row⟩
  let ri := alSet acc.2 rid info
  let rbd := (district_key_variants (some dist)).foldl (fun m k => alAppend m k rid) acc.1
  (rbd, ri)

/-- loader.py `load_votes`, restricted to the two indexes the lookup uses:
`(reps_by_district, rep_info)`. -/
def load_votes (issues : List IssueDefL) (rows : List RowL) :
    List (String × List String) × List (String × RepInfo) :=
  rows.foldl (loadVotesStep issues) ([], [])

/-- Whether `rid` is a key of the `rep_info` dict. -/
def hasKey {β : Type} (m : List (String × β)) (rid : String) : Bool :=
  (m.find? (fun e => e.1 = rid)).isSome

/-! ## Spec-side definition for the de-duplication claim

Modelled from the spec's words ("keeps each representative exactly once, at
the position of its first occurrence, preserving first-seen order"), to be
compared with the source-derived `dedupFO`. -/

def firstOccurSpec : List String → List String
  | [] => []
  | a :: l => a :: firstOccurSpec (l.filter (fun b => b ≠ a))
termination_by l => l.length
decreasing_by
  simp only [List.length_cons]
  exact Nat.lt_succ_of_le (List.length_filter_le _ _)

/-- The keys the base-side floterial probe of app.py lines 315-320 looks up:
each truthy label itself plus all its `variant_keys`. -/
def probedBaseKeys (vals : List (Option String)) : List String :=
  vals.flatMap (fun v =>
    match v with
    | none => []
    | some s => if s = "" then [] else s :: variant_keys [some s])

/-! ## Concrete fixtures used by witnesses and counterexamples -/

/-- Unit square `[0,1] × [0,1]`. -/
def fixtureSquareA : Geom := rectGeom 0 0 1 1

/-- Unit square `[1,2] × [0,1]`, sharing the edge `x = 1` with `fixtureSquareA`. -/
def fixtureSquareB : Geom := rectGeom 1 0 2 1

/-- A square polygon labeled with the base code `GR15`. -/
def fixtureGR15Square : Geom := rectGeom 0 0 2 2

/-- Tables for the floterial scenario: base `GR15` maps to floterial
`GRA-FLOT-1`, and the roster indexes representative `repF` under the
floterial label only. -/
def fixtureFlotTables : LookupTables :=
  ⟨[("GR15", ["GRA-FLOT-1"])], [], [("GRA-FLOT-1", ["repF"])]⟩

/-- Tables with only a town→floterial row and a roster entry for it. -/
def fixtureTownTables : LookupTables :=
  ⟨[], [("LEBANON", ["GRA-FLOT-9"])], [("GRA-FLOT-9", ["rep9"])]⟩

/-- One roster row: no external id, name `Alice`, district `GR15`. -/
def fixtureRow : RowL := ⟨none, some "Alice", some "GR15", some "D", []⟩

/-! ## Helper lemmas -/

theorem dedupFOAux_acc (l : List String) :
    ∀ seen ordered, dedupFOAux seen ordered l = ordered ++ dedupFOAux seen [] l := by
  induction l with
  | nil => intro seen ordered; simp [dedupFOAux]
  | cons r rest ih =>
    intro seen ordered
    by_cases h : r ∈ seen
    · simp only [dedupFOAux, if_pos h]
      exact ih seen ordered
    · simp only [dedupFOAux, if_neg h]
      rw [ih (seen ++ [r]) (ordered ++ [r]), ih (seen ++ [r]) ([] ++ [r])]
      simp

theorem firstOccurSpec_cons (a : String) (l : List String) :
    firstOccurSpec (a :: l) = a :: firstOccurSpec (l.filter (fun b => b ≠ a)) := by
  rw [firstOccurSpec.eq_def]

theorem dedupFOAux_eq_fos (l : List String) :
    ∀ seen, dedupFOAux seen [] l = firstOccurSpec (l.filter (fun b => b ∉ seen)) := by
  induction l with
  | nil => intro seen; simp [dedupFOAux, firstOccurSpec]
  | cons r rest ih =>
    intro seen
    by_cases h : r ∈ seen
    · simp only [dedupFOAux, if_pos h, List.filter_cons]
      simp only [h, not_true_eq_false, decide_False, if_false]
      exact ih seen
    · simp only [dedupFOAux, if_neg h, List.filter_cons]
      simp only [h, not_false_eq_true, decide_True, if_true]
      rw [dedupFOAux_acc, ih (seen ++ [r]), firstOccurSpec_cons]
      simp only [List.cons_append, List.nil_append]
      congr 1
      rw [List.filter_filter]
      congr 1
      apply List.filter_congr
      intro b _
      rcases Decidable.em (b = r) with hb | hb
      · subst hb
        simp [List.mem_append]
      · rcases Decidable.em (b ∈ seen) with hs | hs <;>
          simp [List.mem_append, hb, hs]

theorem dedupFO_eq_firstOccurSpec (l : List String) : dedupFO l = firstOccurSpec l := by
  rw [dedupFO, dedupFOAux_eq_fos]
  congr 1
  apply List.filter_eq_self.mpr
  intro b _
  simp

theorem mem_firstOccurSpec_len (a : String) :
    ∀ (n : Nat) (l : List String), l.length ≤ n → (a ∈ firstOccurSpec l ↔ a ∈ l) := by
  intro n
  induction n with
  | zero =>
    intro l hl
    have : l = [] := List.eq_nil_of_length_eq_zero (Nat.le_zero.mp hl)
    subst this
    simp [firstOccurSpec]
  | succ n ih =>
    intro l hl
    match l with
    | [] => simp [firstOccurSpec]
    | b :: l' =>
      rw [firstOccurSpec_cons]
      have hlen : (l'.filter (fun c => c ≠ b)).length ≤ n :=
        le_trans (List.length_filter_le _ _) (Nat.le_of_succ_le_succ hl)
      rw [List.mem_cons, ih _ hlen, List.mem_filter, List.mem_cons]
      rcases Decidable.em (a = b) with hb | hb <;> simp [hb]

theorem mem_firstOccurSpec (a : String) (l : List String) :
    a ∈ firstOccurSpec l ↔ a ∈ l :=
  mem_firstOccurSpec_len a l.length l le_rfl

theorem firstOccurSpec_nodup_len :
    ∀ (n : Nat) (l : List String), l.length ≤ n → (firstOccurSpec l).Nodup := by
  intro n
  induction n with
  | zero =>
    intro l hl
    have : l = [] := List.eq_nil_of_length_eq_zero (Nat.le_zero.mp hl)
    subst this
    simp [firstOccurSpec]
  | succ n ih =>
    intro l hl
    match l with
    | [] => simp [firstOccurSpec]
    | b :: l' =>
      rw [firstOccurSpec_cons]
      have hlen : (l'.filter (fun c => c ≠ b)).length ≤ n :=
        le_trans (List.length_filter_le _ _) (Nat.le_of_succ_le_succ hl)
      refine List.nodup_cons.mpr ⟨?_, ih _ hlen⟩
      intro hmem
      have := (mem_firstOccurSpec b _).mp hmem
      rw [List.mem_filter] at this
      simp at this

theorem mem_dedupFO (a : String) (l : List String) : a ∈ dedupFO l ↔ a ∈ l := by
  rw [dedupFO_eq_firstOccurSpec, mem_firstOccurSpec]

theorem mem_insSorted (a b : String) (l : List String) :
    b ∈ insSorted a l ↔ b = a ∨ b ∈ l := by
  induction l with
  | nil => simp [insSorted]
  | cons c l ih =>
    by_cases h : a ≤ c
    · simp [insSorted, h]
    · simp only [insSorted, if_neg h, List.mem_cons, ih]
      tauto

theorem mem_sortStrings (a : String) (l : List String) :
    a ∈ sortStrings l ↔ a ∈ l := by
  induction l with
  | nil => simp [sortStrings]
  | cons b l ih =>
    simp only [sortStrings, List.foldr_cons] at *
    rw [mem_insSorted, ih, List.mem_cons]

theorem upperChar_ws (c : Char) (h : isWsChar c = true) : upperChar c = c := by
  simp only [isWsChar, Bool.or_eq_true, decide_eq_true_eq] at h
  rcases h with ((((h | h) | h) | h) | h) | h <;> subst h <;> decide

theorem filter_dropWhile_of_imp {p q : Char → Bool}
    (hpq : ∀ c, q c = true → p c = false) :
    ∀ l : List Char, (l.dropWhile q).filter p = l.filter p := by
  intro l
  induction l with
  | nil => rfl
  | cons c l ih =>
    by_cases h : q c = true
    · rw [List.dropWhile_cons_of_pos h, ih, List.filter_cons, hpq c h]
      simp
    · rw [List.dropWhile_cons_of_neg h]

theorem canonFilter_ws_false (c : Char) (h : isWsChar c = true) :
    (fun d => !(isWsChar d || d = '-')) (upperChar c) = false := by
  rw [upperChar_ws c h]
  simp [h]

theorem canonFilter_pyStripData (l : List Char) :
    (pyStripData l).filter ((fun d => !(isWsChar d || d = '-')) ∘ upperChar) =
      l.filter ((fun d => !(isWsChar d || d = '-')) ∘ upperChar) := by
  have himp : ∀ c, isWsChar c = true →
      ((fun d => !(isWsChar d || d = '-')) ∘ upperChar) c = false := by
    intro c hc
    exact canonFilter_ws_false c hc
  rw [pyStripData, List.filter_reverse, filter_dropWhile_of_imp himp,
    List.filter_reverse, List.reverse_reverse, filter_dropWhile_of_imp himp]

theorem canonKey_pyStrip (s : String) : canonKey (pyStrip s) = canonKey s := by
  show stripSepStr (pyUpper (pyStrip s)) = stripSepStr (pyUpper s)
  unfold stripSepStr pyUpper pyStrip
  apply congrArg String.mk
  show ((pyStripData s.data).map upperChar).filter _ = (s.data.map upperChar).filter _
  rw [List.filter_map, List.filter_map]
  exact congrArg (List.map upperChar) (canonFilter_pyStripData s.data)

theorem pyStrip_empty : pyStrip "" = "" := rfl

/-- The stripped label is among its own `district_key_variants`. -/
theorem strip_mem_district_key_variants (s : String) (h : s ≠ "") :
    pyStrip s ∈ district_key_variants (some s) := by
  rw [district_key_variants, if_neg h]
  rw [mem_dedupFO]
  simp

/-- Every key produced for `s` by the inner flat-map of `variant_keys` lands
in the final key set. -/
theorem mem_variant_keys_of_inner (s k : String) (hs : s ≠ "")
    (hk : k ∈ district_key_variants (some (pyStrip s))) :
    k ∈ variant_keys [some s] := by
  rw [variant_keys, mem_dedupFO]
  apply List.mem_append_left
  rw [mem_dedupFO, List.mem_flatMap]
  refine ⟨some s, by simp, ?_⟩
  simp only [if_neg hs]
  exact List.mem_append_left _ (List.mem_append_left _ hk)

/-- The canonical separator-stripped uppercase form of `s` is among
`variant_keys [some s]` (this is the `more` pass of app.py lines 87-90). -/
theorem canon_mem_variant_keys (s : String) (h : pyStrip s ≠ "") :
    canonKey s ∈ variant_keys [some s] := by
  have hs : s ≠ "" := by
    intro hsEmpty
    rw [hsEmpty, pyStrip_empty] at h
    exact h rfl
  rw [variant_keys, mem_dedupFO]
  apply List.mem_append_right
  rw [List.mem_map]
  refine ⟨pyStrip (pyStrip s), ?_, ?_⟩
  · rw [mem_dedupFO, List.mem_flatMap]
    refine ⟨some s, by simp, ?_⟩
    simp only [if_neg hs]
    apply List.mem_append_left
    apply List.mem_append_left
    exact strip_mem_district_key_variants (pyStrip s) h
  · rw [canonKey_pyStrip, canonKey_pyStrip]

/-- A label that is already stripped is among its own `variant_keys`. -/
theorem self_mem_variant_keys (s : String) (h0 : pyStrip s = s) (h : s ≠ "") :
    s ∈ variant_keys [some s] := by
  apply mem_variant_keys_of_inner s s h
  rw [h0]
  have := strip_mem_district_key_variants s h
  rw [h0] at this
  exact this

/-! ## Claim theorems -/

/-- C9: the Key Normalizer applied to the empty string or to `None` returns
the empty set, at both of its embodiments (`district_key_variants` in
loader.py and `variant_keys` in app.py). -/
theorem variants_of_empty_input :
    district_key_variants none = [] ∧ district_key_variants (some "") = [] ∧
    variant_keys [none] = [] ∧ variant_keys [some ""] = [] := by
  decide

/-- C1 (amended): two district labels whose uppercase forms with all
whitespace and hyphens removed coincide (equal `canonKey`, e.g.
`"Grafton 15"` and `"GRAFTON-15"`) have intersecting `variant_keys` sets,
provided neither strips to the empty string.  The county-code form
(`"GR15"`) and the county-name form (`"Grafton 15"`) do NOT intersect under
`variant_keys` alone (see the counterexample); the lookup route bridges them
separately via `code_to_district_name` and
`three_letter_from_name_or_code`. -/
theorem variant_keys_intersect_of_canon_eq (x y : String)
    (hx : pyStrip x ≠ "") (hy : pyStrip y ≠ "") (h : canonKey x = canonKey y) :
    ∃ k, k ∈ variant_keys [some x] ∧ k ∈ variant_keys [some y] :=
  ⟨canonKey x, canon_mem_variant_keys x hx, h ▸ canon_mem_variant_keys y hy⟩

/-- C1 witness: `"Grafton 15"` and `"GRAFTON-15"` satisfy the hypotheses and
their variant sets intersect. -/
theorem variant_keys_intersect_witness :
    pyStrip "Grafton 15" ≠ "" ∧ pyStrip "GRAFTON-15" ≠ "" ∧
    canonKey "Grafton 15" = canonKey "GRAFTON-15" ∧
    ∃ k, k ∈ variant_keys [some "Grafton 15"] ∧ k ∈ variant_keys [some "GRAFTON-15"] :=
  ⟨by decide, by decide, by decide,
   variant_keys_intersect_of_canon_eq "Grafton 15" "GRAFTON-15"
     (by decide) (by decide) (by decide)⟩

/-- C1 counterexample: `"GR15"` and `"Grafton 15"` denote the same district
(the code's own `code_to_district_name` maps one to the other), yet their
`variant_keys` sets are disjoint: the claim as stated fails on the code. -/
theorem variant_keys_gr15_disjoint :
    code_to_district_name (some "GR15") = some "Grafton 15" ∧
    ∀ k ∈ variant_keys [some "GR15"], k ∉ variant_keys [some "Grafton 15"] := by
  decide

/-- C2 (amended): `_base_from_point` performs a boundary-inclusive test
(`contains` or `intersects`, i.e. closed containment suffices to match) but
returns only the label of the FIRST polygon in load order that contains or
touches the point, `none` when no polygon does — not the list of all
touching polygons that the claim describes. -/
theorem base_from_point_first_touch (shapes : List (Geom × String)) (p : ℚ × ℚ) :
    base_from_point shapes p =
      (shapes.find? (fun gd => gd.1.interiorContains p || gd.1.closedContains p)).map
        Prod.snd := by
  induction shapes with
  | nil => rfl
  | cons gd rest ih =>
    rcases gd with ⟨g, d⟩
    rw [base_from_point, List.find?_cons]
    by_cases h : (g.interiorContains p || g.closedContains p) = true
    · simp only [h, if_true]
      rfl
    · rw [Bool.not_eq_true] at h
      simp only [h, if_false]
      exact ih

/-- C2 counterexample: the point `(1, 0)` lies on the shared edge of the two
unit squares, and the second square touches it (closed containment holds),
yet `_base_from_point` resolves only to the first square's label `"A"`, never
to `"B"`: the claim that every touching polygon is returned fails. -/
theorem base_from_point_boundary_single :
    fixtureSquareB.closedContains (1, 0) = true ∧
    base_from_point [(fixtureSquareA, "A"), (fixtureSquareB, "B")] (1, 0) = some "A" ∧
    base_from_point [(fixtureSquareA, "A"), (fixtureSquareB, "B")] (1, 0) ≠ some "B" := by
  refine ⟨by decide, by decide, by decide⟩

/-- C4: the `seen`/`ordered` de-duplication loop of app.py lines 336-339
keeps each representative id exactly once, at the position of its first
occurrence, preserving first-seen order: it equals the spec-side
first-occurrence function, and its output has no duplicates. -/
theorem dedup_keeps_first_occurrence (l : List String) :
    dedupFO l = firstOccurSpec l ∧ (dedupFO l).Nodup := by
  refine ⟨dedupFO_eq_firstOccurSpec l, ?_⟩
  rw [dedupFO_eq_firstOccurSpec l]
  exact firstOccurSpec_nodup_len l.length l le_rfl

/-- C5: for non-NV classifications the derived stance is `"support"` exactly
when the classification being `"Y"` agrees with the issue's configured
support polarity; in particular with `support_when = "N"` an affirmative
token yields `"oppose"` and a negative token yields `"support"`. -/
theorem stance_matches_polarity (sw : String) (cell : Option String)
    (h : cell_to_yn cell ≠ "NV") :
    (voteEntry sw cell).stance =
      if (cell_to_yn cell = "Y") ↔ (sw = "Y") then "support" else "oppose" := by
  unfold voteEntry
  simp only [if_neg h]
  by_cases hc : (cell_to_yn cell = "Y") ↔ (sw = "Y")
  · rw [if_pos hc, if_pos]
    exact decide_eq_decide.mpr hc
  · rw [if_neg hc, if_neg]
    intro hd
    exact hc (decide_eq_decide.mp hd)

/-- C5 witness: `"Yea"` classifies `"Y"` (non-NV) and with negative polarity
yields `"oppose"`; `"Nay"` yields `"support"`. -/
theorem stance_matches_polarity_witness :
    cell_to_yn (some "Yea") ≠ "NV" ∧
    (voteEntry "N" (some "Yea")).stance = "oppose" ∧
    (voteEntry "N" (some "Nay")).stance = "support" :=
  ⟨by decide,
   (stance_matches_polarity "N" (some "Yea") (by decide)).trans (by decide),
   (stance_matches_polarity "N" (some "Nay") (by decide)).trans (by decide)⟩

/-- C7: whenever the raw cell classifies as NV (blank cells do), the derived
stance is `"no_vote"` and the stored raw field is the empty string — never a
`"nan"`-like placeholder. -/
theorem novote_blank_raw (sw : String) (cell : Option String)
    (h : cell_to_yn cell = "NV") :
    (voteEntry sw cell).stance = "no_vote" ∧ (voteEntry sw cell).raw = "" := by
  unfold voteEntry
  simp [h]

/-- C7 witness: the blank token is NV-class, and its entry has stance
`"no_vote"` and empty raw. -/
theorem novote_blank_raw_witness :
    cell_to_yn (some "") = "NV" ∧
    (voteEntry "Y" (some "")).stance = "no_vote" ∧ (voteEntry "Y" (some "")).raw = "" :=
  ⟨by decide,
   (novote_blank_raw "Y" (some "") (by decide)).1,
   (novote_blank_raw "Y" (some "") (by decide)).2⟩

/-- C8: when none of the keys the base-side floterial probe looks up has a
row in the base→floterial table, expansion with no town supplied returns the
empty set.  (It also cannot raise: every probe is a `dict.get` with a
default, embedded here as the total function `getDL`.) -/
theorem expand_unknown_base_empty (T : LookupTables) (vals : List (Option String))
    (h : ∀ k ∈ probedBaseKeys vals, getDL T.baseToFlots k = []) :
    collectFlots T vals "" = [] := by
  unfold collectFlots
  rw [if_pos rfl, List.append_nil, List.flatMap_eq_nil_iff]
  intro v hv
  match v with
  | none => rfl
  | some s =>
    by_cases hs : s = ""
    · simp [hs]
    · simp only [if_neg hs]
      have hmem : ∀ k ∈ (s :: variant_keys [some s]), getDL T.baseToFlots k = [] := by
        intro k hk
        apply h
        rw [probedBaseKeys, List.mem_flatMap]
        exact ⟨some s, hv, by simp only [if_neg hs]; exact hk⟩
      rw [hmem s (by simp), List.nil_append, List.flatMap_eq_nil_iff]
      intro k hk
      exact hmem k (List.mem_cons_of_mem _ hk)

/-- C8 witness: a base label matching no table row expands to nothing. -/
theorem expand_unknown_base_empty_witness :
    (∀ k ∈ probedBaseKeys [none, some "XX99", none],
      getDL fixtureFlotTables.baseToFlots k = []) ∧
    collectFlots fixtureFlotTables [none, some "XX99", none] "" = [] :=
  ⟨by decide, expand_unknown_base_empty fixtureFlotTables [none, some "XX99", none] (by decide)⟩

/-- C6 (amended): when the polygon index returns zero base labels AND the
town hint has no town→floterial row (in particular when no town hint is
supplied), the lookup result has empty base, floterial and representative
sets; it is a normal `ok` value of the route, distinct by construction from
the geocoding-failure outcome, which is reported before this stage.  (The
claim's unconditional form is false: with a town hint that the
town→floterial table knows, floterials and representatives can be non-empty
even with zero base labels — see the counterexample.) -/
theorem lookup_empty_when_no_base_no_town (shapes : List (Geom × String))
    (T : LookupTables) (p : ℚ × ℚ) (town : String)
    (hb : base_from_point shapes p = none)
    (ht : getDL T.townToFlots town = []) :
    lookupFromPoint shapes T p town = ⟨none, none, [], []⟩ ∧
    lookupRoute shapes T (some (p, town)) = RouteResult.ok ⟨none, none, [], []⟩ ∧
    lookupRoute shapes T none = RouteResult.geocodeFailed := by
  have hflots : collectFlots T [none, none, none] town = [] := by
    unfold collectFlots
    by_cases htw : town = ""
    · simp [htw]
    · simp [htw, ht]
  have h1 : code_to_district_name none = none := rfl
  have h2 : three_letter_from_name_or_code none none = none := by decide
  have h3 : candidateKeys none none none = [] := by decide
  have hcore : lookupCore T none town = ⟨none, none, [], []⟩ := by
    unfold lookupCore
    simp only [h1, h2, h3, hflots]
    rfl
  have hmain : lookupFromPoint shapes T p town = ⟨none, none, [], []⟩ := by
    unfold lookupFromPoint
    rw [hb, hcore]
  refine ⟨hmain, ?_, rfl⟩
  show RouteResult.ok (lookupFromPoint shapes T p town) = _
  rw [hmain]

/-- C6 witness: a point outside the only polygon, no town hint. -/
theorem lookup_empty_no_base_witness :
    base_from_point [(fixtureGR15Square, "GR15")] (5, 5) = none ∧
    getDL fixtureTownTables.townToFlots "" = [] ∧
    lookupFromPoint [(fixtureGR15Square, "GR15")] fixtureTownTables (5, 5) "" =
      ⟨none, none, [], []⟩ :=
  ⟨by decide, by decide,
   (lookup_empty_when_no_base_no_town [(fixtureGR15Square, "GR15")] fixtureTownTables
     (5, 5) "" (by decide) (by decide)).1⟩

/-- C6 counterexample: a point outside every polygon, but with a town hint
that the town→floterial table knows: the base sets are empty yet the
floterial and representative sets are NOT — the claim's "empty
base/floterial/representative sets" fails on the code. -/
theorem lookup_zero_base_nonempty_reps :
    base_from_point [(fixtureGR15Square, "GR15")] (5, 5) = none ∧
    (lookupFromPoint [(fixtureGR15Square, "GR15")] fixtureTownTables (5, 5) "LEBANON").base_code = none ∧
    (lookupFromPoint [(fixtureGR15Square, "GR15")] fixtureTownTables (5, 5) "LEBANON").floterials =
      ["GRA-FLOT-9"] ∧
    (lookupFromPoint [(fixtureGR15Square, "GR15")] fixtureTownTables (5, 5) "LEBANON").repIds =
      ["rep9"] := by
  decide

/-- C3: if the base→floterial table maps the resolved base label to a
floterial label, and the roster index holds a representative id under that
floterial label (as `load_votes` does for a roster row keyed to it), then
for every point resolving to that base district the lookup result includes
that representative id, even though it is not indexed under the base label. -/
theorem lookup_includes_floterial_rep (shapes : List (Geom × String))
    (T : LookupTables) (p : ℚ × ℚ) (town : String) (bc flot rid : String)
    (hbc : base_from_point shapes p = some bc) (hbc0 : bc ≠ "")
    (hflot : flot ∈ getDL T.baseToFlots bc)
    (hstrip : pyStrip flot = flot) (hflot0 : flot ≠ "")
    (hrep : rid ∈ getDL T.repsByDist flot) :
    rid ∈ (lookupFromPoint shapes T p town).repIds := by
  unfold lookupFromPoint
  rw [hbc]
  show rid ∈ dedupFO _
  rw [mem_dedupFO]
  apply List.mem_append_right
  rw [List.mem_flatMap]
  refine ⟨flot, ?_, ?_⟩
  · rw [mem_sortStrings, mem_dedupFO]
    unfold collectFlots
    apply List.mem_append_left
    rw [List.mem_flatMap]
    refine ⟨some bc, by simp, ?_⟩
    show flot ∈ (if bc = "" then [] else
      getDL T.baseToFlots bc ++ (variant_keys [some bc]).flatMap (getDL T.baseToFlots))
    rw [if_neg hbc0]
    exact List.mem_append_left _ hflot
  · rw [List.mem_flatMap]
    refine ⟨flot, ?_, hrep⟩
    have hself : flot ∈ variant_keys [some flot] :=
      self_mem_variant_keys flot hstrip hflot0
    unfold flotProbeKeys
    rcases three_letter_from_name_or_code (some flot) (some "") with _ | f3
    · rw [mem_dedupFO]
      exact hself
    · rw [mem_dedupFO]
      exact List.mem_append_left _ (List.mem_append_left _ hself)

/-- C3 witness: point inside the `GR15` square, table `GR15 → GRA-FLOT-1`,
roster id `repF` indexed under `GRA-FLOT-1` only. -/
theorem lookup_includes_floterial_rep_witness :
    base_from_point [(fixtureGR15Square, "GR15")] (1, 1) = some "GR15" ∧
    "GRA-FLOT-1" ∈ getDL fixtureFlotTables.baseToFlots "GR15" ∧
    "repF" ∈ getDL fixtureFlotTables.repsByDist "GRA-FLOT-1" ∧
    "repF" ∈ (lookupFromPoint [(fixtureGR15Square, "GR15")] fixtureFlotTables (1, 1) "").repIds :=
  ⟨by decide, by decide, by decide,
   lookup_includes_floterial_rep [(fixtureGR15Square, "GR15")] fixtureFlotTables
     (1, 1) "" "GR15" "GRA-FLOT-1" "repF"
     (by decide) (by decide) (by decide) (by decide) (by decide) (by decide)⟩

theorem getDL_mem (m : List (String × List String)) (k rid : String)
    (h : rid ∈ getDL m k) : ∃ e ∈ m, rid ∈ e.2 := by
  unfold getDL at h
  rcases hf : m.find? (fun e => e.1 = k) with _ | e
  · rw [hf] at h
    simp at h
  · rw [hf] at h
    simp only [Option.map_some', Option.getD_some] at h
    exact ⟨e, List.mem_of_find?_eq_some hf, h⟩

theorem lookup_repIds_sourced (T : LookupTables) (bc : Option String) (tu rid : String)
    (h : rid ∈ (lookupCore T bc tu).repIds) : ∃ k, rid ∈ getDL T.repsByDist k := by
  unfold lookupCore at h
  rw [show ∀ a b c d, (LookupResult.mk a b c d).repIds = d from fun _ _ _ _ => rfl] at h
  rw [mem_dedupFO, List.mem_append] at h
  rcases h with h | h
  · rw [List.mem_flatMap] at h
    rcases h with ⟨k, _, hk⟩
    exact ⟨k, hk⟩
  · rw [List.mem_flatMap] at h
    rcases h with ⟨f, _, hf⟩
    rw [List.mem_flatMap] at hf
    rcases hf with ⟨k, _, hk⟩
    exact ⟨k, hk⟩

theorem hasKey_alSet_of {β : Type} (m : List (String × β)) (k r : String) (v : β)
    (h : hasKey m r = true) : hasKey (alSet m k v) r = true := by
  unfold hasKey alSet
  rw [List.find?_cons]
  by_cases hkr : k = r
  · simp [hkr]
  · simp only [hkr, decide_False]
    exact h

theorem hasKey_alSet_self {β : Type} (m : List (String × β)) (k : String) (v : β) :
    hasKey (alSet m k v) k = true := by
  unfold hasKey alSet
  rw [List.find?_cons]
  simp

theorem alAppend_mem (k rid r : String) :
    ∀ (m : List (String × List String)) (e : String × List String),
      e ∈ alAppend m k rid → r ∈ e.2 → r = rid ∨ ∃ e2 ∈ m, r ∈ e2.2 := by
  intro m
  induction m with
  | nil =>
    intro e he hr
    simp only [alAppend, List.mem_singleton] at he
    subst he
    simp only [List.mem_singleton] at hr
    exact Or.inl hr
  | cons e0 rest ih =>
    intro e he hr
    unfold alAppend at he
    by_cases h0 : e0.1 = k
    · rw [if_pos h0] at he
      rcases List.mem_cons.mp he with he | he
      · subst he
        rcases List.mem_append.mp hr with hr2 | hr2
        · exact Or.inr ⟨e0, List.mem_cons_self _ _, hr2⟩
        · simp only [List.mem_singleton] at hr2
          exact Or.inl hr2
      · exact Or.inr ⟨e, List.mem_cons_of_mem _ he, hr⟩
    · rw [if_neg h0] at he
      rcases List.mem_cons.mp he with he | he
      · subst he
        exact Or.inr ⟨e, List.mem_cons_self _ _, hr⟩
      · rcases ih e he hr with h | ⟨e2, he2, hr2⟩
        · exact Or.inl h
        · exact Or.inr ⟨e2, List.mem_cons_of_mem _ he2, hr2⟩

theorem foldl_alAppend_mem (rid : String) (P : String → Prop) (hP : P rid) :
    ∀ (keys : List String) (m : List (String × List String)),
      (∀ e ∈ m, ∀ r ∈ e.2, P r) →
      ∀ e ∈ keys.foldl (fun m k => alAppend m k rid) m, ∀ r ∈ e.2, P r := by
  intro keys
  induction keys with
  | nil =>
    intro m hm
    exact hm
  | cons k keys ih =>
    intro m hm
    rw [List.foldl_cons]
    apply ih
    intro e he r hr
    rcases alAppend_mem k rid r m e he hr with h | ⟨e2, he2, hr2⟩
    · rw [h]
      exact hP
    · exact hm e2 he2 r hr2

theorem loadVotesStep_eq (issues : List IssueDefL)
    (acc : List (String × List String) × List (String × RepInfo)) (row : RowL) :
    loadVotesStep issues acc row =
      ((district_key_variants (some (normCell row.distCell))).foldl
        (fun m k => alAppend m k (repRowId row)) acc.1,
       alSet acc.2 (repRowId row)
         ⟨repRowId row, normCell row.nameCell, normCell row.partyCell,
          normCell row.distCell, rowVotes issues row⟩) := rfl

theorem loadVotesStep_inv (issues : List IssueDefL)
    (acc : List (String × List String) × List (String × RepInfo)) (row : RowL)
    (hInv : ∀ e ∈ acc.1, ∀ r ∈ e.2, hasKey acc.2 r = true) :
    ∀ e ∈ (loadVotesStep issues acc row).1, ∀ r ∈ e.2,
      hasKey (loadVotesStep issues acc row).2 r = true := by
  rw [loadVotesStep_eq]
  exact foldl_alAppend_mem (repRowId row) _
    (hasKey_alSet_self acc.2 (repRowId row) _)
    (district_key_variants (some (normCell row.distCell))) acc.1
    (fun e he r hr => hasKey_alSet_of acc.2 (repRowId row) r _ (hInv e he r hr))

theorem load_votes_fold_inv (issues : List IssueDefL) :
    ∀ (rows : List RowL) (acc : List (String × List String) × List (String × RepInfo)),
      (∀ e ∈ acc.1, ∀ r ∈ e.2, hasKey acc.2 r = true) →
      ∀ e ∈ (rows.foldl (loadVotesStep issues) acc).1, ∀ r ∈ e.2,
        hasKey (rows.foldl (loadVotesStep issues) acc).2 r = true := by
  intro rows
  induction rows with
  | nil =>
    intro acc h
    exact h
  | cons row rows ih =>
    intro acc h
    rw [List.foldl_cons]
    exact ih _ (loadVotesStep_inv issues acc row h)

/-- C10: every representative id that a lookup's de-duplicated id sequence
contains, when the roster index was built by `load_votes`, is a key of the
`rep_info` map — resolving each surviving id to its record cannot miss. -/
theorem resolved_ids_have_records (issues : List IssueDefL) (rows : List RowL)
    (Tb Tt : List (String × List String)) (bc : Option String) (tu rid : String)
    (h : rid ∈ (lookupCore ⟨Tb, Tt, (load_votes issues rows).1⟩ bc tu).repIds) :
    hasKey (load_votes issues rows).2 rid = true := by
  rcases lookup_repIds_sourced _ bc tu rid h with ⟨k, hk⟩
  rcases getDL_mem _ k rid hk with ⟨e, he, hr⟩
  exact load_votes_fold_inv issues rows ([], [])
    (fun e2 he2 => absurd he2 (List.not_mem_nil e2)) e he rid hr

/-- C10 witness: a one-row roster; the id surfaced by a lookup on its
district is a key of the info map. -/
theorem resolved_ids_have_records_witness :
    "Alice|GR15" ∈
      (lookupCore ⟨[], [], (load_votes [] [fixtureRow]).1⟩ (some "GR15") "").repIds ∧
    hasKey (load_votes [] [fixtureRow]).2 "Alice|GR15" = true :=
  ⟨by decide,
   resolved_ids_have_records [] [fixtureRow] [] [] (some "GR15") "" "Alice|GR15" (by decide)⟩
